import Mathlib

/-!
# Verification of the Doc2Quiz knowledge-tree merge and quiz-composition engine

Shallow embedding of the core service layer of the `d2q-backend` repository
(`services/question_bank_service.py` and `services/knowledge_service.py`).

Conventions of the embedding:
* JSON stores are explicit `List` values passed in and returned; a Python
  function that loads a store, mutates it and saves it becomes a Lean function
  from the old store to the new store.
* `HTTPException` raised by a service becomes an `Except HttpError` result; a
  raised exception aborts the request before any save, so on the `.error`
  branch the persisted store is unchanged.
* `uuid4()` / `datetime.now()` are modelled by explicitly passed supplies
  (`uuid : Nat → String`, `now : String`); freshness of generated ids is a
  hypothesis where a theorem needs it.
* `random.sample(l, k)` is modelled by an abstract `Sampler` constrained by
  `SampleSpec`: for `k ≤ l.length` it returns `k` elements of `l` drawn
  without replacement (a permutation of a sublist of `l`).
* Python `dict` (string keys) is modelled by association lists where the last
  binding wins, matching dict-comprehension overwrite semantics.
-/

namespace Doc2Quiz

/-- An `HTTPException(status_code, detail)` raised by the service layer. -/
structure HttpError where
  status : Nat
  detail : String
  deriving Repr, DecidableEq

/-! ## Data model: question bank side (`question_bank_service.py`) -/

/-- The nested `question_content` object of a stored question record. -/
structure QuestionContent where
  type : String
  question : String
  options : List String
  answer : String
  difficulty : String
  score : String
  explanation : String
  knowledge : String
  knowledge_id : Option String
  deriving Repr, DecidableEq

/-- A raw record of `question.json` (`questions` key): the envelope fields plus
the nested `question_content`.  `question_content` is `Option` because
`load_questions` defends against records missing that key. -/
structure RawQuestion where
  question_id : String
  created_time : String
  knowledge_id : Option String
  bank_id : Option String
  question_content : Option QuestionContent
  deriving Repr, DecidableEq

/-- An expanded question as produced by `load_questions`: the
`question_content` fields hoisted to the top level next to the envelope. -/
structure Question where
  question_id : String
  created_time : String
  knowledge_id : Option String
  bank_id : Option String
  type : String
  question : String
  options : List String
  answer : String
  difficulty : String
  score : String
  explanation : String
  knowledge : String
  deriving Repr, DecidableEq

/-- A record of `quiz_question.json`: the empty string in `quiz_id` is the
sentinel for "not yet assigned to a quiz". -/
structure QuizQuestion where
  quiz_id : String
  quiz_name : String
  question_id : String
  question_content : QuestionContent
  deriving Repr, DecidableEq

/-- A record of `question_bank.json` (`banks` key). -/
structure Bank where
  bank_id : String
  bank_name : String
  creator : String
  created_time : String
  deriving Repr, DecidableEq

/-- `QuestionBankService.load_questions`: expand `question_content` to the top
level, skipping records that have no `question_content`. -/
def load_questions (questions_raw : List RawQuestion) : List Question :=
  questions_raw.filterMap fun q =>
    q.question_content.map fun c =>
      { question_id := q.question_id
        created_time := q.created_time
        knowledge_id := q.knowledge_id
        bank_id := q.bank_id
        type := c.type
        question := c.question
        options := c.options
        answer := c.answer
        difficulty := c.difficulty
        score := c.score
        explanation := c.explanation
        knowledge := c.knowledge }

/-- `QuestionBankService.create_question_bank`: reject a duplicate
`bank_name` with a 400, otherwise append a fresh bank record.  `bank_id` and
`created_time` generation (`generate_id`, `get_current_iso_time`) are passed
in as `gen_id` and `now`. -/
def create_question_bank (gen_id now : String) (banks : List Bank)
    (bank_name : String) (creator : Option String) :
    Except HttpError (List Bank × Bank) :=
  if banks.any fun bank => bank.bank_name == bank_name then
    .error ⟨400, "题库名称已存在"⟩
  else
    let new_bank : Bank :=
      { bank_id := gen_id
        bank_name := bank_name
        creator := creator.getD "系统"
        created_time := now }
    .ok (banks ++ [new_bank], new_bank)

/-- `QuestionBankService.update_question_bank`: find the question by id (404
if absent), then stamp `bank_id` on every record that shares the found
record's `created_time` and has no `bank_id` yet. -/
def update_question_bank (questions_raw : List RawQuestion)
    (question_id bank_id : String) : Except HttpError (List RawQuestion) :=
  match questions_raw.find? fun q => q.question_id == question_id with
  | none => .error ⟨404, "题目记录不存在"⟩
  | some found_question =>
      .ok <| questions_raw.map fun q =>
        if q.created_time == found_question.created_time && q.bank_id.isNone then
          { q with bank_id := some bank_id }
        else q

/-- `QuestionBankService.delete_question`: drop every record whose
`question_id` matches; 404 when nothing was dropped. -/
def delete_question (questions_raw : List RawQuestion) (question_id : String) :
    Except HttpError (List RawQuestion) :=
  let remaining := questions_raw.filter fun q => !(q.question_id == question_id)
  if remaining.length == questions_raw.length then
    .error ⟨404, "题目不存在"⟩
  else
    .ok remaining

/-- `QuestionBankService.update_quiz_questions_quiz_info`: stamp `quiz_id` and
`quiz_name` on every stored quiz-question whose `quiz_id` is falsy (the
empty-string sentinel). -/
def update_quiz_questions_quiz_info (quiz_questions : List QuizQuestion)
    (quiz_id quiz_name : String) : List QuizQuestion :=
  quiz_questions.map fun question =>
    if question.quiz_id == "" then
      { question with quiz_id := quiz_id, quiz_name := quiz_name }
    else question

/-! ## Data model: knowledge tree side (`knowledge_service.py`) -/

/-- A node of `knowledge_tree.json` (`items` key).  `file_name` and `node_id`
are only present on extracted knowledge nodes, hence `Option`. -/
structure KnowledgeItem where
  id : String
  name : String
  type : String
  parentId : Option String
  createdAt : String
  file_name : Option String
  node_id : Option Int
  deriving Repr, DecidableEq

/-- One item of the locally-numbered outline produced by the extraction
oracle: `{id, text, parentId}`, with `parentId = -1` for outline roots. -/
structure DirectoryItem where
  id : Int
  text : String
  parentId : Int
  deriving Repr, DecidableEq

/-- `KnowledgeService.find_parent_document`: first node with the given id. -/
def find_parent_document (knowledge_items : List KnowledgeItem)
    (knowledge_item_id : String) : Option KnowledgeItem :=
  knowledge_items.find? fun item => item.id == knowledge_item_id

/-- `KnowledgeService.remove_existing_knowledge_points`: drop every node that
is a `knowledge`-typed direct child of the anchor tagged with the same
`file_name`. -/
def remove_existing_knowledge_points (knowledge_items : List KnowledgeItem)
    (knowledge_item_id : String) (file_name : String) : List KnowledgeItem :=
  knowledge_items.filter fun item =>
    !(item.parentId == some knowledge_item_id && item.type == "knowledge"
        && item.file_name == some file_name)

/-- First pass of `convert_directory_to_knowledge_items`: one fresh id per
outline item, as the association list `localId ↦ uuid position`. -/
def build_id_mapping (uuid : Nat → String) (directory_items : List DirectoryItem) :
    List (Int × String) :=
  directory_items.enum.map fun p => (p.2.id, uuid p.1)

/-- Python `dict` lookup over an association list built by successive
assignments: the last binding for a key wins. -/
def dict_get (id_mapping : List (Int × String)) (key : Int) : Option String :=
  (id_mapping.reverse.find? fun p => p.1 == key).map fun p => p.2

/-- Second pass of `convert_directory_to_knowledge_items` for one outline
item: wire `parentId` to the anchor for outline roots, else to the mapped
fresh id of the local parent.  `none` models the `KeyError` raised on a
dangling `parentId` reference. -/
def convert_item (id_mapping : List (Int × String))
    (knowledge_item_id file_name now : String) (dir_item : DirectoryItem) :
    Option KnowledgeItem := do
  let node_id ← dict_get id_mapping dir_item.id
  let parent_id ←
    if dir_item.parentId == -1 then some knowledge_item_id
    else dict_get id_mapping dir_item.parentId
  some
    { id := node_id
      name := dir_item.text
      type := "knowledge"
      parentId := some parent_id
      createdAt := now
      file_name := some file_name
      node_id := some dir_item.id }

/-- The second-pass loop: convert the items in order, aborting at the first
`KeyError` (nothing is persisted in that case). -/
def convert_loop (id_mapping : List (Int × String))
    (knowledge_item_id file_name now : String) :
    List DirectoryItem → Option (List KnowledgeItem)
  | [] => some []
  | dir_item :: rest => do
      let item ← convert_item id_mapping knowledge_item_id file_name now dir_item
      let items ← convert_loop id_mapping knowledge_item_id file_name now rest
      some (item :: items)

/-- `KnowledgeService.convert_directory_to_knowledge_items`: allocate all
fresh ids first (`build_id_mapping`), then build the nodes. -/
def convert_directory_to_knowledge_items (uuid : Nat → String) (now : String)
    (directory_items : List DirectoryItem)
    (knowledge_item_id file_name : String) : Option (List KnowledgeItem) :=
  convert_loop (build_id_mapping uuid directory_items)
    knowledge_item_id file_name now directory_items

/-- `KnowledgeService.merge_knowledge_points_to_tree`: resolve the anchor
(absent anchor is a reported no-op with count 0), purge stale same-document
knowledge children, convert the outline and append.  `none` models the
`KeyError` escaping on a malformed outline, which happens before the save. -/
def merge_knowledge_points_to_tree (uuid : Nat → String) (now : String)
    (knowledge_items : List KnowledgeItem) (directory_items : List DirectoryItem)
    (knowledge_item_id file_name : String) :
    Option (List KnowledgeItem × Nat) :=
  match find_parent_document knowledge_items knowledge_item_id with
  | none => some (knowledge_items, 0)
  | some _ =>
      let pruned :=
        remove_existing_knowledge_points knowledge_items knowledge_item_id file_name
      match convert_directory_to_knowledge_items uuid now directory_items
          knowledge_item_id file_name with
      | none => none
      | some new_items => some (pruned ++ new_items, new_items.length)

/-- The knowledge tree persisted on disk after a `merge_knowledge_points_to_tree`
call: a `KeyError` escapes before `save_knowledge_tree`, so the stored tree is
then the unmodified input. -/
def tree_after_merge (uuid : Nat → String) (now : String)
    (knowledge_items : List KnowledgeItem) (directory_items : List DirectoryItem)
    (knowledge_item_id file_name : String) : List KnowledgeItem :=
  match merge_knowledge_points_to_tree uuid now knowledge_items directory_items
      knowledge_item_id file_name with
  | some (tree, _) => tree
  | none => knowledge_items

/-- The observable the merge-idempotence property counts: the number of
`knowledge`-typed nodes sitting directly under the given anchor. -/
def knowledge_children_count (knowledge_items : List KnowledgeItem)
    (anchor_id : String) : Nat :=
  (knowledge_items.filter fun item =>
    item.parentId == some anchor_id && item.type == "knowledge").length

/-- The recursive closure of `delete_knowledge_points.find_all_descendants`:
ids of all transitive children of `parent_id`.  The Python recursion has no
cycle guard and diverges on cyclic input; `fuel` bounds the recursion depth,
and any `fuel` larger than the longest parent chain computes the same set the
Python function returns on terminating input. -/
def find_all_descendants (all_items : List KnowledgeItem) :
    Nat → String → Finset String
  | 0, _ => ∅
  | fuel + 1, parent_id =>
      all_items.foldl
        (fun descendants item =>
          if item.parentId == some parent_id then
            (descendants ∪ {item.id}) ∪ find_all_descendants all_items fuel item.id
          else descendants)
        ∅

/-- `KnowledgeService.delete_knowledge_points`: remove every node whose id is
in the descendant closure of the given id (the node itself is not in that
closure), returning the remaining tree and the deleted count. -/
def delete_knowledge_points (items : List KnowledgeItem)
    (knowledge_item_id : String) : List KnowledgeItem × Nat :=
  let items_to_delete :=
    find_all_descendants items (items.length + 1) knowledge_item_id
  let remaining_items := items.filter fun item => item.id ∉ items_to_delete
  (remaining_items, items_to_delete.card)

/-! ## The quiz composer (`QuestionBankService.compose_quiz`) -/

/-- The type of `random.sample` as used by the composer. -/
abbrev Sampler : Type := List Question → Nat → List Question

/-- What `random.sample(l, n)` guarantees for `n ≤ len(l)`: `n` elements of
`l` drawn without replacement, in some order — a permutation of a sublist. -/
def SampleSpec (s : Sampler) : Prop :=
  ∀ l n, n ≤ l.length → (s l n).length = n ∧ (s l n).Subperm l

/-- Python's `str.lower()` as used on question types: lower-case every
character (structurally, so that concrete instances evaluate). -/
def str_lower (s : String) : String := ⟨s.data.map Char.toLower⟩

/-- The membership test `q.get("knowledge_id") in knowledge_ids` (a `None`
knowledge id is never in a list of strings). -/
def knowledge_id_selected (knowledge_ids : List String) (q : Question) : Bool :=
  match q.knowledge_id with
  | some k => knowledge_ids.contains k
  | none => false

/-- The per-type candidate pool: normalized type match plus selected
knowledge id. -/
def type_questions_for (questions_list : List Question)
    (knowledge_ids : List String) (question_type : String) : List Question :=
  questions_list.filter fun q =>
    str_lower q.type == str_lower question_type &&
      knowledge_id_selected knowledge_ids q

/-- Round-1 body of the composer for one knowledge id: draw
`min(min_per_knowledge, available)` unused questions of this knowledge id.
The accumulator is `(selected_questions, used_question_ids)`. -/
def draw_for_knowledge (s : Sampler) (min_per_knowledge : Nat)
    (type_questions : List Question) (acc : List Question × List String)
    (knowledge_id : String) : List Question × List String :=
  let knowledge_questions := type_questions.filter fun q =>
    q.knowledge_id == some knowledge_id && !(acc.2.contains q.question_id)
  if knowledge_questions.isEmpty then acc
  else
    let count := min min_per_knowledge knowledge_questions.length
    let selected := s knowledge_questions count
    (acc.1 ++ selected, acc.2 ++ selected.map fun q => q.question_id)

/-- Round 1 of the selection pass: fold `draw_for_knowledge` over the
selected knowledge ids, starting from no selected questions and no used
ids. -/
def round1 (s : Sampler) (min_per_knowledge : Nat)
    (type_questions : List Question) (knowledge_ids : List String) :
    List Question × List String :=
  knowledge_ids.foldl (draw_for_knowledge s min_per_knowledge type_questions)
    ([], [])

/-- The selection pass of `compose_quiz` for one question type with a
positive target: round 1 draws a floor share per knowledge id, round 2
backfills the shortfall from the remaining candidates. -/
def select_for_type (s : Sampler) (questions_list : List Question)
    (knowledge_ids : List String) (question_type : String)
    (target_count : Nat) : List Question :=
  let type_questions := type_questions_for questions_list knowledge_ids question_type
  if type_questions.isEmpty then []
  else
    let min_per_knowledge := target_count / knowledge_ids.length
    let drawn := round1 s min_per_knowledge type_questions knowledge_ids
    let remaining_needed : Int := (target_count : Int) - drawn.1.length
    if remaining_needed > 0 then
      let remaining_questions := type_questions.filter fun q =>
        !(drawn.2.contains q.question_id) && knowledge_id_selected knowledge_ids q
      if remaining_questions.isEmpty then drawn.1
      else
        drawn.1 ++
          s remaining_questions (min remaining_needed.toNat remaining_questions.length)
    else drawn.1

/-- The dict comprehension `{q["question_id"]: q for q in questions_raw if
q["question_id"]}` followed by `.get(question_id) if question_id else None`:
last truthy-keyed record wins. -/
def question_id_to_raw_get (questions_raw : List RawQuestion)
    (question_id : String) : Option RawQuestion :=
  if question_id == "" then none
  else
    (questions_raw.filter fun q => !(q.question_id == "")).reverse.find?
      fun q => q.question_id == question_id

/-- The content snapshot rebuilt from an expanded question when the raw
record cannot be found. -/
def fallback_content (question : Question) : QuestionContent :=
  { type := question.type
    question := question.question
    options := question.options
    answer := question.answer
    difficulty := question.difficulty
    score := question.score
    explanation := question.explanation
    knowledge := question.knowledge
    knowledge_id := question.knowledge_id }

/-- Turn one selected question into an unassigned quiz item (`quiz_id` and
`quiz_name` empty): snapshot the raw `question_content` when available, and
fall back to a fresh uuid for a falsy `question_id` (`question_id or
str(uuid4())`).  The counter indexes the uuid supply. -/
def to_quiz_item (uuid : Nat → String) (counter : Nat)
    (questions_raw : List RawQuestion) (question : Question) :
    QuizQuestion × Nat :=
  let question_id := question.question_id
  let question_content :=
    match question_id_to_raw_get questions_raw question_id with
    | some raw_question =>
        match raw_question.question_content with
        | some c => c
        | none => fallback_content question
    | none => fallback_content question
  if question_id == "" then
    ({ quiz_id := "", quiz_name := "", question_id := uuid counter,
       question_content := question_content }, counter + 1)
  else
    ({ quiz_id := "", quiz_name := "", question_id := question_id,
       question_content := question_content }, counter)

/-- Convert all selected questions of one type into quiz items, threading
the uuid counter. -/
def build_quiz_items (uuid : Nat → String) (questions_raw : List RawQuestion) :
    List Question → Nat → List QuizQuestion × Nat
  | [], counter => ([], counter)
  | question :: rest, counter =>
      let (item, counter') := to_quiz_item uuid counter questions_raw question
      let (items, counter'') := build_quiz_items uuid questions_raw rest counter'
      (item :: items, counter'')

/-- One iteration of `compose_quiz`'s loop over `target_counts.items()`:
skip non-positive targets, otherwise select for the type and append the
resulting quiz items. -/
def compose_type_step (s : Sampler) (uuid : Nat → String)
    (questions_raw : List RawQuestion) (questions_list : List Question)
    (knowledge_ids : List String) (acc : List QuizQuestion × Nat)
    (entry : String × Int) : List QuizQuestion × Nat :=
  if entry.2 ≤ 0 then acc
  else
    let selected_questions :=
      select_for_type s questions_list knowledge_ids entry.1 entry.2.toNat
    let built := build_quiz_items uuid questions_raw selected_questions acc.2
    (acc.1 ++ built.1, built.2)

/-- `QuestionBankService.compose_quiz`: guard the empty question store and
the empty knowledge-id selection with 400s, compose per type, and append the
new unassigned batch to the quiz-question store (`save_quiz_questions_to_file`
extends the existing records).  Returns the updated store and the composed
count.  `bank_id` and `quiz_name` are accepted but never used by the
algorithm. -/
def compose_quiz (s : Sampler) (uuid : Nat → String)
    (questions_raw : List RawQuestion) (quiz_questions : List QuizQuestion)
    (_bank_id : String) (knowledge_ids : List String)
    (target_counts : List (String × Int)) (_quiz_name : String) :
    Except HttpError (List QuizQuestion × Nat) :=
  let questions_list := load_questions questions_raw
  if questions_list.isEmpty then .error ⟨400, "题库中没有题目"⟩
  else if knowledge_ids.isEmpty then .error ⟨400, "请至少选择一个知识点"⟩
  else
    let composed := target_counts.foldl
      (compose_type_step s uuid questions_raw questions_list knowledge_ids) ([], 0)
    .ok (quiz_questions ++ composed.1, composed.1.length)

/-- The quiz-question store persisted after a `compose_quiz` call: an
`HTTPException` is raised before anything is written, so on failure the
stored records are unchanged. -/
def quiz_store_after_compose (s : Sampler) (uuid : Nat → String)
    (questions_raw : List RawQuestion) (quiz_questions : List QuizQuestion)
    (bank_id : String) (knowledge_ids : List String)
    (target_counts : List (String × Int)) (quiz_name : String) :
    List QuizQuestion :=
  match compose_quiz s uuid questions_raw quiz_questions bank_id knowledge_ids
      target_counts quiz_name with
  | .ok (store, _) => store
  | .error _ => quiz_questions

/-- A concrete deterministic instance of the `random.sample` contract, used
to evaluate the composer on concrete inputs. -/
def take_sampler : Sampler := fun l n => l.take n

/-- A small concrete question store used to evaluate the service operations:
two questions saved in one batch (`created_time = "t1"`) and one from a
different batch. -/
def sample_raw_store : List RawQuestion :=
  [{ question_id := "q1", created_time := "t1", knowledge_id := none,
     bank_id := none, question_content := none },
   { question_id := "q2", created_time := "t1", knowledge_id := none,
     bank_id := none, question_content := none },
   { question_id := "q3", created_time := "t2", knowledge_id := none,
     bank_id := none, question_content := none }]

/-- A concrete question content payload used by witness instances. -/
def sample_content : QuestionContent :=
  ⟨"single_choice", "1+1?", ["2", "3"], "2", "easy", "5", "", "addition",
    some "K1"⟩

/-- A one-question store (with content) used to run the composer on a
concrete input. -/
def sample_question_store : List RawQuestion :=
  [{ question_id := "qc1", created_time := "t1", knowledge_id := some "K1",
     bank_id := none, question_content := some sample_content }]

/-- A three-question store spanning two knowledge points, used to evaluate
the composer's target satisfaction on a concrete input. -/
def sample_multi_store : List RawQuestion :=
  [{ question_id := "m1", created_time := "t1", knowledge_id := some "K1",
     bank_id := none, question_content := some sample_content },
   { question_id := "m2", created_time := "t1", knowledge_id := some "K1",
     bank_id := none, question_content := some sample_content },
   { question_id := "m3", created_time := "t1", knowledge_id := some "K2",
     bank_id := none, question_content := some sample_content }]

/-! ## Helper lemmas -/

theorem length_filter_not_add (p : α → Bool) (l : List α) :
    (l.filter fun a => !p a).length + (l.filter p).length = l.length := by
  rw [← List.countP_eq_length_filter, ← List.countP_eq_length_filter]
  have h := List.length_eq_countP_add_countP p (l := l)
  simp only [decide_not, Bool.decide_eq_true] at h
  omega

theorem take_sampler_spec : SampleSpec take_sampler := by
  intro l n hn
  refine ⟨?_, (List.take_sublist n l).subperm⟩
  simp [take_sampler, hn]

/-! ## C7: bank-name uniqueness -/

/-- C7: creating a question bank whose name exactly matches an existing
bank's name fails with a 400 conflict and performs no write; after one
successful creation of a bank named `bank_name`, a second attempt fails and
the store holds exactly one bank of that name. -/
theorem create_question_bank_name_unique
    (gen_id₁ now₁ gen_id₂ now₂ : String) (banks : List Bank)
    (bank_name : String) (creator₁ creator₂ : Option String) :
    ((∃ b ∈ banks, b.bank_name = bank_name) →
      create_question_bank gen_id₁ now₁ banks bank_name creator₁ =
        .error ⟨400, "题库名称已存在"⟩) ∧
    (∀ banks' new_bank,
      create_question_bank gen_id₁ now₁ banks bank_name creator₁ =
          .ok (banks', new_bank) →
      create_question_bank gen_id₂ now₂ banks' bank_name creator₂ =
          .error ⟨400, "题库名称已存在"⟩ ∧
        (banks'.filter fun b => b.bank_name == bank_name).length = 1) := by
  constructor
  · rintro ⟨b, hb, hname⟩
    have hany : (banks.any fun bank => bank.bank_name == bank_name) = true :=
      List.any_eq_true.mpr ⟨b, hb, by simp [hname]⟩
    simp [create_question_bank, hany]
  · intro banks' new_bank hok
    cases hany : banks.any fun bank => bank.bank_name == bank_name with
    | true => simp [create_question_bank, hany] at hok
    | false =>
      simp only [create_question_bank, hany, Bool.false_eq_true, if_false,
        Except.ok.injEq, Prod.mk.injEq] at hok
      obtain ⟨hbanks', hnew⟩ := hok
      have hnone : ∀ b ∈ banks, (b.bank_name == bank_name) = false := by
        intro b hb
        have := List.any_eq_false.mp hany b hb
        simpa using this
      have hfilter : (banks.filter fun b => b.bank_name == bank_name) = [] :=
        List.filter_eq_nil_iff.mpr fun b hb => by simp [hnone b hb]
      constructor
      · have hany' : (banks'.any fun bank => bank.bank_name == bank_name) = true := by
          subst hbanks' hnew
          refine List.any_eq_true.mpr ⟨_, List.mem_append_right _ (List.mem_singleton_self _), ?_⟩
          simp
        simp [create_question_bank, hany']
      · subst hbanks' hnew
        simp [List.filter_append, hfilter]

/-- Witness for C7 at a concrete store: a second creation of "Algebra" is
rejected with the conflict error and the store still holds exactly one
"Algebra" bank. -/
theorem create_question_bank_name_unique_witness :
    create_question_bank "bank_2" "t2"
        [({ bank_id := "bank_1", bank_name := "Algebra", creator := "系统",
            created_time := "t1" } : Bank)] "Algebra" none =
      .error ⟨400, "题库名称已存在"⟩ ∧
    (([({ bank_id := "bank_1", bank_name := "Algebra", creator := "系统",
          created_time := "t1" } : Bank)]).filter
      fun b => b.bank_name == "Algebra").length = 1 :=
  (create_question_bank_name_unique "bank_1" "t1" "bank_2" "t2" [] "Algebra"
    none none).2
    [({ bank_id := "bank_1", bank_name := "Algebra", creator := "系统",
        created_time := "t1" } : Bank)]
    { bank_id := "bank_1", bank_name := "Algebra", creator := "系统",
      created_time := "t1" }
    rfl

/-! ## C9: question deletion -/

/-- C9: `delete_question` fails with a 404 (leaving the store untouched)
when no stored question has the given id, and otherwise — questions carrying
unique ids, per the data-model invariant — removes exactly one record, the
matching one. -/
theorem delete_question_spec (questions_raw : List RawQuestion)
    (question_id : String) :
    ((∀ q ∈ questions_raw, q.question_id ≠ question_id) →
      delete_question questions_raw question_id = .error ⟨404, "题目不存在"⟩) ∧
    ((questions_raw.map RawQuestion.question_id).Nodup →
      (∃ q ∈ questions_raw, q.question_id = question_id) →
      delete_question questions_raw question_id =
          .ok (questions_raw.filter fun q => !(q.question_id == question_id)) ∧
        (questions_raw.filter fun q => !(q.question_id == question_id)).length + 1 =
          questions_raw.length) := by
  constructor
  · intro hnone
    have hself : (questions_raw.filter fun q => !(q.question_id == question_id)) =
        questions_raw :=
      List.filter_eq_self.mpr fun q hq => by simp [hnone q hq]
    simp [delete_question, hself]
  · intro hnodup hmem
    have hcount :
        (questions_raw.filter fun q => q.question_id == question_id).length = 1 := by
      rw [← List.countP_eq_length_filter]
      have hmap : List.count question_id
          (questions_raw.map RawQuestion.question_id) = 1 := by
        refine List.count_eq_one_of_mem hnodup ?_
        obtain ⟨q, hq, hid⟩ := hmem
        exact List.mem_map.mpr ⟨q, hq, hid⟩
      rw [List.count, List.countP_map] at hmap
      exact hmap
    have hlen := length_filter_not_add
      (fun q => q.question_id == question_id) questions_raw
    rw [hcount] at hlen
    have hne : ((questions_raw.filter fun q =>
        !(q.question_id == question_id)).length == questions_raw.length) = false := by
      simp only [beq_eq_false_iff_ne]
      omega
    refine ⟨?_, hlen⟩
    simp [delete_question, hne]

/-- Witness for C9: deleting `"q2"` from a two-question store removes exactly
that record. -/
theorem delete_question_spec_witness :
    delete_question
        [({ question_id := "q1", created_time := "t", knowledge_id := none,
            bank_id := none, question_content := none } : RawQuestion),
         ({ question_id := "q2", created_time := "t", knowledge_id := none,
            bank_id := none, question_content := none } : RawQuestion)] "q2" =
      .ok [({ question_id := "q1", created_time := "t", knowledge_id := none,
              bank_id := none, question_content := none } : RawQuestion)] :=
  ((delete_question_spec
      [({ question_id := "q1", created_time := "t", knowledge_id := none,
          bank_id := none, question_content := none } : RawQuestion),
       ({ question_id := "q2", created_time := "t", knowledge_id := none,
          bank_id := none, question_content := none } : RawQuestion)] "q2").2
    (by decide)
    ⟨{ question_id := "q2", created_time := "t", knowledge_id := none,
       bank_id := none, question_content := none },
     by simp, rfl⟩).1

/-! ## C5: bank assignment propagates over the save batch -/

/-- C5: when some stored question has the requested id, `update_question_bank`
stamps `bank_id` on exactly the stored questions sharing the found question's
`created_time` that have no `bank_id` yet, leaving every other record
unchanged; when no stored question has the id it fails with a 404 and the
store is untouched. -/
theorem update_question_bank_spec (questions_raw : List RawQuestion)
    (question_id bank_id : String) :
    ((∀ q ∈ questions_raw, q.question_id ≠ question_id) →
      update_question_bank questions_raw question_id bank_id =
        .error ⟨404, "题目记录不存在"⟩) ∧
    ((∃ q ∈ questions_raw, q.question_id = question_id) →
      ∃ found updated,
        (questions_raw.find? fun q => q.question_id == question_id) = some found ∧
        found.question_id = question_id ∧
        update_question_bank questions_raw question_id bank_id = .ok updated ∧
        updated.length = questions_raw.length ∧
        ∀ i (h : i < questions_raw.length) (h' : i < updated.length),
          (questions_raw[i].created_time = found.created_time ∧
              questions_raw[i].bank_id = none →
            updated[i] = { questions_raw[i] with bank_id := some bank_id }) ∧
          (¬(questions_raw[i].created_time = found.created_time ∧
              questions_raw[i].bank_id = none) →
            updated[i] = questions_raw[i])) := by
  constructor
  · intro hnone
    have hfind : (questions_raw.find? fun q => q.question_id == question_id) = none :=
      List.find?_eq_none.mpr fun q hq => by simp [hnone q hq]
    simp [update_question_bank, hfind]
  · intro hmem
    have hsome : (questions_raw.find? fun q => q.question_id == question_id).isSome := by
      rw [List.find?_isSome]
      obtain ⟨q, hq, hid⟩ := hmem
      exact ⟨q, hq, by simp [hid]⟩
    obtain ⟨found, hfind⟩ := Option.isSome_iff_exists.mp hsome
    refine ⟨found,
      questions_raw.map fun q =>
        if q.created_time == found.created_time && q.bank_id.isNone then
          { q with bank_id := some bank_id }
        else q,
      hfind, by simpa using List.find?_some hfind, ?_, by simp, ?_⟩
    · simp [update_question_bank, hfind]
    · intro i h h'
      constructor
      · rintro ⟨hct, hbank⟩
        have hcond : (questions_raw[i].created_time == found.created_time &&
            questions_raw[i].bank_id.isNone) = true := by
          simp [hct, hbank]
        simp only [List.getElem_map, hcond, if_true]
      · intro hnot
        have hcond : (questions_raw[i].created_time == found.created_time &&
            questions_raw[i].bank_id.isNone) = false := by
          rcases Decidable.not_and_iff_or_not.mp hnot with hc | hb
          · simp [beq_eq_false_iff_ne.mpr hc]
          · have hb' : questions_raw[i].bank_id.isNone = false := by
              simpa [Option.isNone_iff_eq_none] using Option.ne_none_iff_isSome.mp hb
            simp [hb']
        simp only [List.getElem_map, hcond, Bool.false_eq_true, if_false]

/-- Witness for C5: assigning bank "B" through `"q1"` updates the whole
`"t1"` batch and leaves the `"t2"` batch alone. -/
theorem update_question_bank_spec_witness :
    ∃ found updated,
      (sample_raw_store.find? fun q => q.question_id == "q1") = some found ∧
      found.question_id = "q1" ∧
      update_question_bank sample_raw_store "q1" "B" = .ok updated ∧
      updated.length = sample_raw_store.length ∧
      ∀ i (h : i < sample_raw_store.length) (h' : i < updated.length),
        (sample_raw_store[i].created_time = found.created_time ∧
            sample_raw_store[i].bank_id = none →
          updated[i] = { sample_raw_store[i] with bank_id := some "B" }) ∧
        (¬(sample_raw_store[i].created_time = found.created_time ∧
            sample_raw_store[i].bank_id = none) →
          updated[i] = sample_raw_store[i]) :=
  (update_question_bank_spec sample_raw_store "q1" "B").2
    ⟨{ question_id := "q1", created_time := "t1", knowledge_id := none,
       bank_id := none, question_content := none },
     by simp [sample_raw_store], rfl⟩

/-! ## C6: the unassigned-batch claim -/

theorem build_quiz_items_quiz_id (uuid : Nat → String)
    (questions_raw : List RawQuestion) :
    ∀ (selected : List Question) (counter : Nat),
      ∀ item ∈ (build_quiz_items uuid questions_raw selected counter).1,
        item.quiz_id = "" := by
  intro selected
  induction selected with
  | nil => intro counter item h; simp [build_quiz_items] at h
  | cons q rest ih =>
    intro counter item h
    simp only [build_quiz_items, List.mem_cons] at h
    rcases h with h | h
    · subst h
      cases hq : q.question_id == "" <;> simp [to_quiz_item, hq]
    · exact ih _ item h

theorem build_quiz_items_length (uuid : Nat → String)
    (questions_raw : List RawQuestion) :
    ∀ (selected : List Question) (counter : Nat),
      (build_quiz_items uuid questions_raw selected counter).1.length =
        selected.length := by
  intro selected
  induction selected with
  | nil => intro counter; simp [build_quiz_items]
  | cons q rest ih => intro counter; simp [build_quiz_items, ih]

theorem compose_fold_quiz_id (s : Sampler) (uuid : Nat → String)
    (questions_raw : List RawQuestion) (questions_list : List Question)
    (knowledge_ids : List String) :
    ∀ (target_counts : List (String × Int)) (acc : List QuizQuestion × Nat),
      (∀ item ∈ acc.1, item.quiz_id = "") →
      ∀ item ∈ (target_counts.foldl
          (compose_type_step s uuid questions_raw questions_list knowledge_ids)
          acc).1,
        item.quiz_id = "" := by
  intro target_counts
  induction target_counts with
  | nil => intro acc hacc item h; exact hacc item h
  | cons entry rest ih =>
    intro acc hacc item h
    rw [List.foldl_cons] at h
    refine ih _ ?_ item h
    intro item' h'
    unfold compose_type_step at h'
    split at h'
    · exact hacc item' h'
    · rcases List.mem_append.mp h' with h'' | h''
      · exact hacc item' h''
      · exact build_quiz_items_quiz_id uuid questions_raw _ _ item' h''

/-- C6: `update_quiz_questions_quiz_info` moves every currently-unassigned
quiz-question (empty-string `quiz_id`) — whatever compose call produced it —
into the new quiz at once, leaving assigned records untouched; and
`compose_quiz`, the only other operation that writes the quiz-question
store, never changes an existing record and appends only unassigned ones, so
the claim step is the only transition out of the unassigned state. -/
theorem update_quiz_questions_claims_all_unassigned :
    (∀ (quiz_questions : List QuizQuestion) (quiz_id quiz_name : String),
      (update_quiz_questions_quiz_info quiz_questions quiz_id quiz_name).length =
        quiz_questions.length ∧
      ∀ i (h : i < quiz_questions.length)
        (h' : i < (update_quiz_questions_quiz_info quiz_questions quiz_id
          quiz_name).length),
        (quiz_questions[i].quiz_id = "" →
          (update_quiz_questions_quiz_info quiz_questions quiz_id quiz_name)[i] =
            { quiz_questions[i] with quiz_id := quiz_id, quiz_name := quiz_name }) ∧
        (quiz_questions[i].quiz_id ≠ "" →
          (update_quiz_questions_quiz_info quiz_questions quiz_id quiz_name)[i] =
            quiz_questions[i])) ∧
    (∀ (s : Sampler) (uuid : Nat → String) (questions_raw : List RawQuestion)
      (quiz_questions : List QuizQuestion) (bank_id : String)
      (knowledge_ids : List String) (target_counts : List (String × Int))
      (quiz_name : String) (store : List QuizQuestion) (n : Nat),
      compose_quiz s uuid questions_raw quiz_questions bank_id knowledge_ids
          target_counts quiz_name = .ok (store, n) →
      ∃ new_items, store = quiz_questions ++ new_items ∧
        ∀ item ∈ new_items, item.quiz_id = "") := by
  constructor
  · intro quiz_questions quiz_id quiz_name
    refine ⟨by simp [update_quiz_questions_quiz_info], ?_⟩
    intro i h h'
    constructor
    · intro hempty
      simp [update_quiz_questions_quiz_info, List.getElem_map, hempty]
    · intro hne
      simp [update_quiz_questions_quiz_info, List.getElem_map, hne]
  · intro s uuid questions_raw quiz_questions bank_id knowledge_ids
      target_counts quiz_name store n hok
    cases h1 : (load_questions questions_raw).isEmpty with
    | true => rw [compose_quiz] at hok; simp [h1] at hok
    | false =>
      cases h2 : knowledge_ids.isEmpty with
      | true => rw [compose_quiz] at hok; simp [h1, h2] at hok
      | false =>
        rw [compose_quiz] at hok
        simp only [h1, h2, Bool.false_eq_true, if_false, Except.ok.injEq,
          Prod.mk.injEq] at hok
        refine ⟨_, hok.1.symm, ?_⟩
        intro item hitem
        exact compose_fold_quiz_id s uuid questions_raw _ knowledge_ids
          target_counts ([], 0) (by simp) item hitem

/-- Witness for C6: on a store holding one unassigned record, the claim
stamps it with the new quiz's identity; a concrete compose run is `.ok` and
its output decomposes into old store plus unassigned-only new items. -/
theorem update_quiz_questions_claims_all_unassigned_witness :
    (update_quiz_questions_quiz_info
        [({ quiz_id := "", quiz_name := "", question_id := "qa",
            question_content := sample_content } : QuizQuestion)] "Z" "Quiz Z")[0]? =
      some { quiz_id := "Z", quiz_name := "Quiz Z", question_id := "qa",
             question_content := sample_content } ∧
    ∃ new_items,
      [({ quiz_id := "", quiz_name := "", question_id := "qc1",
          question_content := sample_content } : QuizQuestion)] =
        ([] : List QuizQuestion) ++ new_items ∧
      ∀ item ∈ new_items, item.quiz_id = "" := by
  constructor
  · have h := ((update_quiz_questions_claims_all_unassigned.1
      [({ quiz_id := "", quiz_name := "", question_id := "qa",
          question_content := sample_content } : QuizQuestion)] "Z" "Quiz Z").2
      0 (by decide) (by simp [update_quiz_questions_quiz_info])).1 rfl
    rw [List.getElem?_eq_getElem (by simp [update_quiz_questions_quiz_info]), h]
    rfl
  · have hcomp : compose_quiz take_sampler (fun n => toString n)
        sample_question_store [] "bank_1" ["K1"] [("single_choice", 1)] "" =
        Except.ok ([(⟨"", "", "qc1", sample_content⟩ : QuizQuestion)], 1) := rfl
    exact update_quiz_questions_claims_all_unassigned.2 take_sampler
      (fun n => toString n) sample_question_store [] "bank_1" ["K1"]
      [("single_choice", 1)] ""
      [{ quiz_id := "", quiz_name := "", question_id := "qc1",
         question_content := sample_content }] 1 hcomp

/-! ## C8: merging under a missing anchor is a reported no-op -/

/-- C8: when the anchor id matches no node of the tree,
`merge_knowledge_points_to_tree` returns zero nodes merged without raising
and the persisted tree is exactly the input tree. -/
theorem merge_missing_anchor (uuid : Nat → String) (now : String)
    (knowledge_items : List KnowledgeItem) (directory_items : List DirectoryItem)
    (knowledge_item_id file_name : String)
    (habsent : ∀ item ∈ knowledge_items, item.id ≠ knowledge_item_id) :
    merge_knowledge_points_to_tree uuid now knowledge_items directory_items
      knowledge_item_id file_name = some (knowledge_items, 0) := by
  have hfind : find_parent_document knowledge_items knowledge_item_id = none := by
    rw [find_parent_document]
    exact List.find?_eq_none.mpr fun item hi => by simp [habsent item hi]
  simp [merge_knowledge_points_to_tree, hfind]

/-! ## C4: descendant-closure exactness on a chain -/

theorem find_all_descendants_succ (all_items : List KnowledgeItem) (fuel : Nat)
    (parent_id : String) :
    find_all_descendants all_items (fuel + 1) parent_id =
      all_items.foldl
        (fun descendants item =>
          if item.parentId == some parent_id then
            (descendants ∪ {item.id}) ∪ find_all_descendants all_items fuel item.id
          else descendants)
        ∅ := rfl

theorem find_all_descendants_perm {l₁ l₂ : List KnowledgeItem} (h : l₁.Perm l₂) :
    ∀ (fuel : Nat) (parent_id : String),
      find_all_descendants l₁ fuel parent_id =
        find_all_descendants l₂ fuel parent_id := by
  intro fuel
  induction fuel with
  | zero => intro parent_id; rfl
  | succ n ih =>
    intro parent_id
    rw [find_all_descendants_succ, find_all_descendants_succ]
    have hfun : (fun (descendants : Finset String) (item : KnowledgeItem) =>
        if item.parentId == some parent_id then
          (descendants ∪ {item.id}) ∪ find_all_descendants l₁ n item.id
        else descendants) =
        fun (descendants : Finset String) (item : KnowledgeItem) =>
          if item.parentId == some parent_id then
            (descendants ∪ {item.id}) ∪ find_all_descendants l₂ n item.id
          else descendants := by
      funext acc item
      rw [ih]
    rw [hfun]
    refine h.foldl_eq' ?_ ∅
    intro x _ y _ z
    dsimp only
    split <;> split <;> first
      | rfl
      | · ext w
          simp only [Finset.mem_union, Finset.mem_singleton]
          tauto

/-- C4: on a tree that is a permutation of a chain `A → B → C` (with
distinct ids and `A` not a child of any of the three), the descendant
closure of `A` is exactly `{B.id, C.id}` — `A` itself excluded — and
`delete_knowledge_points A` removes exactly `B` and `C`, leaves `A`, and
reports a deleted count of 2. -/
theorem descendant_closure_chain (a b c : KnowledgeItem)
    (items : List KnowledgeItem) (hperm : items.Perm [a, b, c])
    (hb : b.parentId = some a.id) (hc : c.parentId = some b.id)
    (hab : a.id ≠ b.id) (hac : a.id ≠ c.id) (hbc : b.id ≠ c.id)
    (ha1 : a.parentId ≠ some a.id) (ha2 : a.parentId ≠ some b.id)
    (ha3 : a.parentId ≠ some c.id) :
    find_all_descendants items (items.length + 1) a.id = {b.id, c.id} ∧
    (delete_knowledge_points items a.id).1.Perm [a] ∧
    (delete_knowledge_points items a.id).2 = 2 := by
  have hba : b.id ≠ a.id := Ne.symm hab
  have hlen : items.length = 3 := by rw [hperm.length_eq]; rfl
  have h2 : find_all_descendants [a, b, c] 2 c.id = ∅ := by
    rw [show (2 : Nat) = 1 + 1 from rfl, find_all_descendants_succ]
    simp [ha3, hb, hc, hac, hbc]
  have h3 : find_all_descendants [a, b, c] 3 b.id = {c.id} := by
    rw [show (3 : Nat) = 2 + 1 from rfl, find_all_descendants_succ]
    simp [ha2, hb, hc, hab, h2]
  have hclosure : find_all_descendants items (items.length + 1) a.id =
      {b.id, c.id} := by
    rw [find_all_descendants_perm hperm, hlen, find_all_descendants_succ]
    simp [ha1, hb, hc, hba, h3, ← Finset.insert_eq]
  refine ⟨hclosure, ?_, ?_⟩
  · have hfilter : (delete_knowledge_points items a.id).1 =
        items.filter fun item => item.id ∉ ({b.id, c.id} : Finset String) := by
      simp only [delete_knowledge_points, hclosure]
    rw [hfilter]
    refine (hperm.filter _).trans ?_
    have hka : (decide (a.id ∉ ({b.id, c.id} : Finset String))) = true := by
      simp [hab, hac]
    have hkb : (decide (b.id ∉ ({b.id, c.id} : Finset String))) = false := by
      simp
    have hkc : (decide (c.id ∉ ({b.id, c.id} : Finset String))) = false := by
      simp
    simp [List.filter, hka, hkb, hkc, hab, hac]
  · have : (delete_knowledge_points items a.id).2 =
        ({b.id, c.id} : Finset String).card := by
      simp only [delete_knowledge_points, hclosure]
    rw [this, Finset.card_insert_of_not_mem (by simp [hbc]),
      Finset.card_singleton]

/-- Witness for C4 on a concrete three-node chain. -/
theorem descendant_closure_chain_witness :
    find_all_descendants
        [({ id := "A", name := "A", type := "folder", parentId := none,
            createdAt := "t", file_name := none, node_id := none } :
          KnowledgeItem),
         ({ id := "B", name := "B", type := "folder", parentId := some "A",
            createdAt := "t", file_name := none, node_id := none } :
          KnowledgeItem),
         ({ id := "C", name := "C", type := "folder", parentId := some "B",
            createdAt := "t", file_name := none, node_id := none } :
          KnowledgeItem)] 4 "A" = {"B", "C"} := by
  have h := descendant_closure_chain
    { id := "A", name := "A", type := "folder", parentId := none,
      createdAt := "t", file_name := none, node_id := none }
    { id := "B", name := "B", type := "folder", parentId := some "A",
      createdAt := "t", file_name := none, node_id := none }
    { id := "C", name := "C", type := "folder", parentId := some "B",
      createdAt := "t", file_name := none, node_id := none }
    _ (List.Perm.refl _) rfl rfl (by decide) (by decide) (by decide)
    (by decide) (by decide) (by decide)
  exact h.1

/-! ## C3: fresh-id allocation and parent wiring in the merge engine -/

theorem build_id_mapping_keys (uuid : Nat → String)
    (directory_items : List DirectoryItem) :
    (build_id_mapping uuid directory_items).map Prod.fst =
      directory_items.map DirectoryItem.id := by
  rw [build_id_mapping, List.map_map]
  have hcomp : (Prod.fst ∘ fun p : Nat × DirectoryItem => (p.2.id, uuid p.1)) =
      (DirectoryItem.id ∘ Prod.snd) := rfl
  rw [hcomp, ← List.map_map, List.enum_map_snd]

theorem dict_get_isSome_iff (m : List (Int × String)) (k : Int) :
    (dict_get m k).isSome ↔ k ∈ m.map Prod.fst := by
  rw [dict_get]
  simp only [Option.isSome_map', List.find?_isSome, List.mem_reverse,
    List.mem_map]
  constructor
  · rintro ⟨p, hp, hk⟩
    exact ⟨p, hp, by simpa using (beq_iff_eq.mp hk)⟩
  · rintro ⟨p, hp, hk⟩
    exact ⟨p, hp, by simp [hk]⟩

theorem dict_get_mem_values {m : List (Int × String)} {k : Int} {v : String}
    (h : dict_get m k = some v) : v ∈ m.map Prod.snd := by
  rw [dict_get] at h
  cases hfind : m.reverse.find? fun p => p.1 == k with
  | none => rw [hfind] at h; simp at h
  | some p =>
      rw [hfind] at h
      simp only [Option.map_some', Option.some.injEq] at h
      have hp : p ∈ m := List.mem_reverse.mp (List.mem_of_find?_eq_some hfind)
      exact List.mem_map.mpr ⟨p, hp, h⟩

theorem find?_key_of_nodup :
    ∀ (m : List (Int × String)), (m.map Prod.fst).Nodup →
      ∀ {k : Int} {v : String}, (k, v) ∈ m →
        (m.find? fun p => p.1 == k) = some (k, v) := by
  intro m
  induction m with
  | nil => intro _ k v hmem; simp at hmem
  | cons p rest ih =>
    intro hnd k v hmem
    rw [List.map_cons, List.nodup_cons] at hnd
    rcases List.mem_cons.mp hmem with rfl | hmem'
    · exact List.find?_cons_of_pos _ (by simp)
    · have hk : k ∈ rest.map Prod.fst := List.mem_map.mpr ⟨_, hmem', rfl⟩
      have hne : (p.1 == k) = false := by
        refine beq_eq_false_iff_ne.mpr fun h => ?_
        exact hnd.1 (h ▸ hk)
      rw [List.find?_cons_of_neg _ (by simp [hne])]
      exact ih hnd.2 hmem'

theorem dict_get_of_nodup {m : List (Int × String)}
    (hnd : (m.map Prod.fst).Nodup) {k : Int} {v : String}
    (hmem : (k, v) ∈ m) : dict_get m k = some v := by
  rw [dict_get, find?_key_of_nodup m.reverse ?_ (List.mem_reverse.mpr hmem)]
  · rfl
  · rw [List.map_reverse]
    exact List.nodup_reverse.mpr hnd

theorem build_id_mapping_get (uuid : Nat → String)
    (directory_items : List DirectoryItem)
    (hnodup : (directory_items.map DirectoryItem.id).Nodup)
    (k : Nat) (hk : k < directory_items.length) :
    dict_get (build_id_mapping uuid directory_items) directory_items[k].id =
      some (uuid k) := by
  apply dict_get_of_nodup
  · rw [build_id_mapping_keys]; exact hnodup
  · rw [build_id_mapping]
    refine List.mem_map.mpr ⟨(k, directory_items[k]), ?_, rfl⟩
    rw [List.mem_enum_iff_getElem?]
    simp [hk]

theorem build_id_mapping_values {uuid : Nat → String}
    {directory_items : List DirectoryItem} {v : String}
    (h : v ∈ (build_id_mapping uuid directory_items).map Prod.snd) :
    ∃ n, v = uuid n := by
  rw [build_id_mapping, List.map_map] at h
  obtain ⟨p, _, hp⟩ := List.mem_map.mp h
  exact ⟨p.1, hp.symm⟩

theorem convert_item_isSome_iff (id_mapping : List (Int × String))
    (knowledge_item_id file_name now : String) (d : DirectoryItem) :
    (convert_item id_mapping knowledge_item_id file_name now d).isSome ↔
      d.id ∈ id_mapping.map Prod.fst ∧
        (d.parentId = -1 ∨ d.parentId ∈ id_mapping.map Prod.fst) := by
  rw [convert_item]
  cases hnode : dict_get id_mapping d.id with
  | none =>
      have : ¬d.id ∈ id_mapping.map Prod.fst := by
        rw [← dict_get_isSome_iff, hnode]; simp
      simp [Option.bind, this]
  | some node_id =>
      have hmem : d.id ∈ id_mapping.map Prod.fst := by
        rw [← dict_get_isSome_iff, hnode]; rfl
      by_cases hroot : d.parentId = -1
      · simp [Option.bind, hroot, hmem]
      · have hbeq : (d.parentId == -1) = false := beq_eq_false_iff_ne.mpr hroot
        cases hpar : dict_get id_mapping d.parentId with
        | none =>
            have : ¬d.parentId ∈ id_mapping.map Prod.fst := by
              rw [← dict_get_isSome_iff, hpar]; simp
            simp [Option.bind, hbeq, hpar, hmem, hroot, this]
        | some pv =>
            have : d.parentId ∈ id_mapping.map Prod.fst := by
              rw [← dict_get_isSome_iff, hpar]; rfl
            simp [Option.bind, hbeq, hpar, hmem, this]

theorem convert_item_some_spec {id_mapping : List (Int × String)}
    {knowledge_item_id file_name now : String} {d : DirectoryItem}
    {n : KnowledgeItem}
    (h : convert_item id_mapping knowledge_item_id file_name now d = some n) :
    dict_get id_mapping d.id = some n.id ∧
    n.name = d.text ∧ n.type = "knowledge" ∧ n.createdAt = now ∧
    n.file_name = some file_name ∧ n.node_id = some d.id ∧
    ((d.parentId = -1 ∧ n.parentId = some knowledge_item_id) ∨
      (d.parentId ≠ -1 ∧ ∃ v, dict_get id_mapping d.parentId = some v ∧
        n.parentId = some v)) := by
  rw [convert_item] at h
  cases hnode : dict_get id_mapping d.id with
  | none => rw [hnode] at h; simp [Option.bind] at h
  | some node_id =>
      rw [hnode] at h
      by_cases hroot : d.parentId = -1
      · have hbeq : (d.parentId == -1) = true := by simp [hroot]
        simp only [Option.bind_eq_bind, Option.some_bind, hbeq, if_true] at h
        cases h
        exact ⟨rfl, rfl, rfl, rfl, rfl, rfl, Or.inl ⟨hroot, rfl⟩⟩
      · have hbeq : (d.parentId == -1) = false := beq_eq_false_iff_ne.mpr hroot
        simp only [Option.bind_eq_bind, Option.some_bind, hbeq,
          Bool.false_eq_true, if_false] at h
        cases hpar : dict_get id_mapping d.parentId with
        | none => rw [hpar] at h; simp at h
        | some pv =>
            rw [hpar] at h
            simp only [Option.some_bind, Option.some.injEq] at h
            cases h
            exact ⟨rfl, rfl, rfl, rfl, rfl, rfl,
              Or.inr ⟨hroot, pv, rfl, rfl⟩⟩

theorem convert_loop_some (id_mapping : List (Int × String))
    (knowledge_item_id file_name now : String) :
    ∀ (l : List DirectoryItem),
      (∀ d ∈ l,
        (convert_item id_mapping knowledge_item_id file_name now d).isSome) →
      ∃ r, convert_loop id_mapping knowledge_item_id file_name now l = some r ∧
        List.Forall₂
          (fun d n =>
            convert_item id_mapping knowledge_item_id file_name now d = some n)
          l r := by
  intro l
  induction l with
  | nil => intro _; exact ⟨[], rfl, List.Forall₂.nil⟩
  | cons d rest ih =>
    intro hall
    obtain ⟨n, hn⟩ := Option.isSome_iff_exists.mp (hall d (List.mem_cons_self d rest))
    obtain ⟨r, hr, hf⟩ := ih fun d' hd' => hall d' (List.mem_cons_of_mem d hd')
    refine ⟨n :: r, ?_, List.Forall₂.cons hn hf⟩
    rw [convert_loop, hn, hr]
    rfl

theorem convert_loop_isSome_of_none (id_mapping : List (Int × String))
    (knowledge_item_id file_name now : String) :
    ∀ (l : List DirectoryItem) (d : DirectoryItem), d ∈ l →
      (convert_item id_mapping knowledge_item_id file_name now d) = none →
      convert_loop id_mapping knowledge_item_id file_name now l = none := by
  intro l
  induction l with
  | nil => intro d hd; simp at hd
  | cons d0 rest ih =>
    intro d hd hnone
    rcases List.mem_cons.mp hd with rfl | hd'
    · rw [convert_loop, hnone]; rfl
    · rw [convert_loop]
      cases h0 : convert_item id_mapping knowledge_item_id file_name now d0 with
      | none => rfl
      | some n0 => rw [ih d hd' hnone]; rfl

/-- C3: for an outline whose parent references all resolve inside the
outline, the merge engine's conversion succeeds, allocating `uuid j` as the
fresh id of the `j`-th item before any parent is wired; an item with
`parentId = -1` is wired to the anchor, and any other item is wired to the
fresh id allocated for the outline item carrying that local id — never the
raw local integer — even when that parent item appears later in the
outline. -/
theorem merge_id_mapping_round_trip (uuid : Nat → String) (now : String)
    (directory_items : List DirectoryItem)
    (knowledge_item_id file_name : String)
    (hnodup : (directory_items.map DirectoryItem.id).Nodup)
    (hwf : ∀ d ∈ directory_items,
      d.parentId = -1 ∨ ∃ p ∈ directory_items, p.id = d.parentId) :
    ∃ new_items,
      convert_directory_to_knowledge_items uuid now directory_items
          knowledge_item_id file_name = some new_items ∧
      new_items.length = directory_items.length ∧
      ∀ j (hj : j < directory_items.length) (hj' : j < new_items.length),
        new_items[j].id = uuid j ∧
        (directory_items[j].parentId = -1 →
          new_items[j].parentId = some knowledge_item_id) ∧
        ∀ k (hk : k < directory_items.length),
          directory_items[j].parentId ≠ -1 →
          directory_items[k].id = directory_items[j].parentId →
          new_items[j].parentId = some (uuid k) := by
  have hkeys := build_id_mapping_keys uuid directory_items
  have hall : ∀ d ∈ directory_items,
      (convert_item (build_id_mapping uuid directory_items) knowledge_item_id
        file_name now d).isSome := by
    intro d hd
    rw [convert_item_isSome_iff, hkeys]
    refine ⟨List.mem_map.mpr ⟨d, hd, rfl⟩, ?_⟩
    rcases hwf d hd with hroot | ⟨p, hp, hpid⟩
    · exact Or.inl hroot
    · exact Or.inr (List.mem_map.mpr ⟨p, hp, hpid⟩)
  obtain ⟨r, hr, hf⟩ := convert_loop_some _ _ _ _ directory_items hall
  have hlen := hf.length_eq
  refine ⟨r, hr, hlen.symm, ?_⟩
  intro j hj hj'
  have hj2 := (List.forall₂_iff_get.mp hf).2
  have hspec := convert_item_some_spec (hj2 j hj hj')
  simp only [List.get_eq_getElem] at hspec
  refine ⟨?_, ?_, ?_⟩
  · have hid := hspec.1
    rw [build_id_mapping_get uuid directory_items hnodup j hj] at hid
    exact (Option.some.inj hid).symm
  · intro hroot
    rcases hspec.2.2.2.2.2.2 with ⟨_, hp⟩ | ⟨hne, _⟩
    · exact hp
    · exact absurd hroot hne
  · intro k hk hnroot hkid
    rcases hspec.2.2.2.2.2.2 with ⟨hroot, _⟩ | ⟨hne, v, hv, hp⟩
    · exact absurd hroot hnroot
    · rw [← hkid, build_id_mapping_get uuid directory_items hnodup k hk] at hv
      rw [hp, Option.some.inj hv]

/-! ## C2: merge idempotence per (anchor, document) -/

theorem convert_loop_forall₂ (id_mapping : List (Int × String))
    (knowledge_item_id file_name now : String) :
    ∀ (l : List DirectoryItem) (r : List KnowledgeItem),
      convert_loop id_mapping knowledge_item_id file_name now l = some r →
      List.Forall₂
        (fun d n =>
          convert_item id_mapping knowledge_item_id file_name now d = some n)
        l r := by
  intro l
  induction l with
  | nil =>
      intro r h
      rw [convert_loop] at h
      cases h
      exact List.Forall₂.nil
  | cons d rest ih =>
      intro r h
      rw [convert_loop] at h
      cases hd : convert_item id_mapping knowledge_item_id file_name now d with
      | none => rw [hd] at h; simp at h
      | some n =>
          rw [hd] at h
          cases hr : convert_loop id_mapping knowledge_item_id file_name now rest with
          | none => rw [hr] at h; simp at h
          | some rr =>
              rw [hr] at h
              simp only [Option.bind_eq_bind, Option.some_bind,
                Option.some.injEq] at h
              cases h
              exact List.Forall₂.cons hd (ih rr hr)

theorem convert_loop_isSome_iff (id_mapping : List (Int × String))
    (knowledge_item_id file_name now : String) :
    ∀ (l : List DirectoryItem),
      (convert_loop id_mapping knowledge_item_id file_name now l).isSome ↔
        ∀ d ∈ l,
          (convert_item id_mapping knowledge_item_id file_name now d).isSome := by
  intro l
  induction l with
  | nil => simp [convert_loop]
  | cons d rest ih =>
      rw [convert_loop]
      cases hd : convert_item id_mapping knowledge_item_id file_name now d with
      | none => simp [hd]
      | some n =>
          cases hr : convert_loop id_mapping knowledge_item_id file_name now rest with
          | none => simp [hd, hr, ← ih]
          | some rr => simp [hd, hr, ← ih]

/-- The merge conversion succeeds exactly when every outline parent
reference resolves inside the outline — independently of the uuid supply and
timestamp. -/
theorem convert_isSome_iff (uuid : Nat → String) (now : String)
    (directory_items : List DirectoryItem) (knowledge_item_id file_name : String) :
    (convert_directory_to_knowledge_items uuid now directory_items
        knowledge_item_id file_name).isSome ↔
      ∀ d ∈ directory_items,
        d.parentId = -1 ∨ d.parentId ∈ directory_items.map DirectoryItem.id := by
  rw [convert_directory_to_knowledge_items, convert_loop_isSome_iff]
  constructor
  · intro h d hd
    have hi := (convert_item_isSome_iff _ _ _ _ d).mp (h d hd)
    rw [build_id_mapping_keys] at hi
    exact hi.2
  · intro h d hd
    rw [convert_item_isSome_iff, build_id_mapping_keys]
    exact ⟨List.mem_map.mpr ⟨d, hd, rfl⟩, h d hd⟩

theorem forall₂_filter_length {α β : Type} {R : α → β → Prop}
    {p : β → Bool} {q : α → Bool} :
    ∀ {l : List α} {r : List β}, List.Forall₂ R l r →
      (∀ d n, R d n → p n = q d) →
      (r.filter p).length = (l.filter q).length := by
  intro l r hf hpq
  induction hf with
  | nil => rfl
  | @cons d n l' r' hR _ ih =>
      rw [List.filter_cons, List.filter_cons, hpq d n hR]
      cases q d <;> simp [ih]

theorem forall₂_exists_of_mem_right {α β : Type} {R : α → β → Prop} :
    ∀ {l : List α} {r : List β}, List.Forall₂ R l r →
      ∀ x ∈ r, ∃ d ∈ l, R d x := by
  intro l r h
  induction h with
  | nil => intro x hx; simp at hx
  | @cons d n l' r' hR _ ih =>
      intro x hx
      rcases List.mem_cons.mp hx with rfl | hx'
      · exact ⟨d, List.mem_cons_self d l', hR⟩
      · obtain ⟨d', hd', hRd⟩ := ih x hx'
        exact ⟨d', List.mem_cons_of_mem d hd', hRd⟩

/-- Every node produced by the merge conversion is tagged with the incoming
outline's source document. -/
theorem convert_mem_file_name {uuid : Nat → String} {now : String}
    {directory_items : List DirectoryItem} {knowledge_item_id file_name : String}
    {new_items : List KnowledgeItem}
    (h : convert_directory_to_knowledge_items uuid now directory_items
      knowledge_item_id file_name = some new_items) :
    ∀ x ∈ new_items, x.file_name = some file_name := by
  rw [convert_directory_to_knowledge_items] at h
  have hf := convert_loop_forall₂ _ _ _ _ directory_items new_items h
  intro x hx
  obtain ⟨d, _, hR⟩ := forall₂_exists_of_mem_right hf x hx
  exact (convert_item_some_spec hR).2.2.2.2.1

/-- With a uuid supply that never collides with the anchor id, the number of
`knowledge` children of the anchor among the freshly converted nodes equals
the number of outline roots — independent of the supply. -/
theorem convert_children_count {uuid : Nat → String} {now : String}
    {directory_items : List DirectoryItem} {knowledge_item_id file_name : String}
    {new_items : List KnowledgeItem}
    (hfresh : ∀ n, uuid n ≠ knowledge_item_id)
    (h : convert_directory_to_knowledge_items uuid now directory_items
      knowledge_item_id file_name = some new_items) :
    knowledge_children_count new_items knowledge_item_id =
      (directory_items.filter fun d => d.parentId == -1).length := by
  rw [convert_directory_to_knowledge_items] at h
  have hf := convert_loop_forall₂ _ _ _ _ directory_items new_items h
  rw [knowledge_children_count]
  refine forall₂_filter_length hf ?_
  intro d n hR
  have hspec := convert_item_some_spec hR
  rcases hspec.2.2.2.2.2.2 with ⟨hroot, hp⟩ | ⟨hne, v, hv, hp⟩
  · simp [hp, hspec.2.2.1, hroot]
  · obtain ⟨i, rfl⟩ := build_id_mapping_values (dict_get_mem_values hv)
    simp [hp, hspec.2.2.1, hfresh i, beq_eq_false_iff_ne.mpr hne]

theorem remove_existing_append (l₁ l₂ : List KnowledgeItem)
    (knowledge_item_id file_name : String) :
    remove_existing_knowledge_points (l₁ ++ l₂) knowledge_item_id file_name =
      remove_existing_knowledge_points l₁ knowledge_item_id file_name ++
        remove_existing_knowledge_points l₂ knowledge_item_id file_name := by
  simp [remove_existing_knowledge_points, List.filter_append]

theorem remove_existing_idem (l : List KnowledgeItem)
    (knowledge_item_id file_name : String) :
    remove_existing_knowledge_points
        (remove_existing_knowledge_points l knowledge_item_id file_name)
        knowledge_item_id file_name =
      remove_existing_knowledge_points l knowledge_item_id file_name := by
  rw [remove_existing_knowledge_points, remove_existing_knowledge_points,
    List.filter_filter]
  exact List.filter_congr fun x _ => Bool.and_self _

theorem knowledge_children_count_append (l₁ l₂ : List KnowledgeItem)
    (anchor_id : String) :
    knowledge_children_count (l₁ ++ l₂) anchor_id =
      knowledge_children_count l₁ anchor_id +
        knowledge_children_count l₂ anchor_id := by
  simp [knowledge_children_count, List.filter_append]

/-- Purging a freshly converted batch for its own (anchor, document) pair
removes every knowledge child of the anchor from it. -/
theorem knowledge_children_count_prune (new_items : List KnowledgeItem)
    (knowledge_item_id file_name : String)
    (hfn : ∀ x ∈ new_items, x.file_name = some file_name) :
    knowledge_children_count
        (remove_existing_knowledge_points new_items knowledge_item_id file_name)
        knowledge_item_id = 0 := by
  rw [knowledge_children_count, List.length_eq_zero]
  refine List.filter_eq_nil_iff.mpr ?_
  intro x hx
  obtain ⟨hmem, hcond⟩ := List.mem_filter.mp hx
  rw [remove_existing_knowledge_points] at hx
  simp only [Bool.not_eq_eq_eq_not, Bool.not_true] at hcond
  intro hpk
  have hfile : (x.file_name == some file_name) = true := by
    simp [hfn x (List.mem_of_mem_filter hx)]
  rw [hpk, hfile] at hcond
  simp at hcond

/-- C2: merging the same outline for the same (anchor, document) pair twice
in a row leaves the same number of knowledge nodes under the anchor as
merging it once — the second merge purges the first merge's output before
re-adding it.  (The uuid supplies are assumed to never collide with the
anchor id.) -/
theorem merge_idempotent (uuid₁ uuid₂ : Nat → String) (now₁ now₂ : String)
    (knowledge_items : List KnowledgeItem)
    (directory_items : List DirectoryItem)
    (knowledge_item_id file_name : String)
    (hfresh₁ : ∀ n, uuid₁ n ≠ knowledge_item_id)
    (hfresh₂ : ∀ n, uuid₂ n ≠ knowledge_item_id) :
    knowledge_children_count
        (tree_after_merge uuid₂ now₂
          (tree_after_merge uuid₁ now₁ knowledge_items directory_items
            knowledge_item_id file_name)
          directory_items knowledge_item_id file_name)
        knowledge_item_id =
      knowledge_children_count
        (tree_after_merge uuid₁ now₁ knowledge_items directory_items
          knowledge_item_id file_name)
        knowledge_item_id := by
  cases hfind : find_parent_document knowledge_items knowledge_item_id with
  | none =>
      have h1 : tree_after_merge uuid₁ now₁ knowledge_items directory_items
          knowledge_item_id file_name = knowledge_items := by
        simp [tree_after_merge, merge_knowledge_points_to_tree, hfind]
      rw [h1]
      simp [tree_after_merge, merge_knowledge_points_to_tree, hfind]
  | some parent =>
      cases hconv₁ : convert_directory_to_knowledge_items uuid₁ now₁
          directory_items knowledge_item_id file_name with
      | none =>
          have h1 : tree_after_merge uuid₁ now₁ knowledge_items directory_items
              knowledge_item_id file_name = knowledge_items := by
            simp [tree_after_merge, merge_knowledge_points_to_tree, hfind, hconv₁]
          have hconv₂ : convert_directory_to_knowledge_items uuid₂ now₂
              directory_items knowledge_item_id file_name = none := by
            cases h2 : convert_directory_to_knowledge_items uuid₂ now₂
                directory_items knowledge_item_id file_name with
            | none => rfl
            | some r =>
                have hs := (convert_isSome_iff uuid₂ now₂ directory_items
                  knowledge_item_id file_name).mp (by rw [h2]; rfl)
                have h1s := (convert_isSome_iff uuid₁ now₁ directory_items
                  knowledge_item_id file_name).mpr hs
                rw [hconv₁] at h1s
                simp at h1s
          rw [h1]
          simp [tree_after_merge, merge_knowledge_points_to_tree, hfind, hconv₂]
      | some new₁ =>
          have h1 : tree_after_merge uuid₁ now₁ knowledge_items directory_items
              knowledge_item_id file_name =
              remove_existing_knowledge_points knowledge_items knowledge_item_id
                file_name ++ new₁ := by
            simp [tree_after_merge, merge_knowledge_points_to_tree, hfind, hconv₁]
          obtain ⟨new₂, hconv₂⟩ := Option.isSome_iff_exists.mp
            ((convert_isSome_iff uuid₂ now₂ directory_items knowledge_item_id
                file_name).mpr
              ((convert_isSome_iff uuid₁ now₁ directory_items knowledge_item_id
                file_name).mp (by rw [hconv₁]; rfl)))
          rw [h1]
          cases hfind₂ : find_parent_document
              (remove_existing_knowledge_points knowledge_items knowledge_item_id
                file_name ++ new₁) knowledge_item_id with
          | none =>
              simp [tree_after_merge, merge_knowledge_points_to_tree, hfind₂]
          | some parent₂ =>
              have h2 : tree_after_merge uuid₂ now₂
                  (remove_existing_knowledge_points knowledge_items
                    knowledge_item_id file_name ++ new₁)
                  directory_items knowledge_item_id file_name =
                  remove_existing_knowledge_points
                    (remove_existing_knowledge_points knowledge_items
                      knowledge_item_id file_name ++ new₁)
                    knowledge_item_id file_name ++ new₂ := by
                simp [tree_after_merge, merge_knowledge_points_to_tree, hfind₂,
                  hconv₂]
              rw [h2, remove_existing_append, remove_existing_idem,
                List.append_assoc, knowledge_children_count_append,
                knowledge_children_count_append, knowledge_children_count_append,
                knowledge_children_count_prune new₁ knowledge_item_id file_name
                  (convert_mem_file_name hconv₁),
                convert_children_count hfresh₁ hconv₁,
                convert_children_count hfresh₂ hconv₂]
              omega

/-- Witness for C2: a double merge of a two-item outline under a concrete
anchor yields the same knowledge-children count as a single merge. -/
theorem merge_idempotent_witness :
    knowledge_children_count
        (tree_after_merge (fun _ => "v") "t2"
          (tree_after_merge (fun _ => "u") "t1"
            [({ id := "A", name := "A", type := "document", parentId := none,
                createdAt := "t0", file_name := none, node_id := none } :
              KnowledgeItem)]
            [({ id := 1, text := "X", parentId := -1 } : DirectoryItem),
             ({ id := 2, text := "Y", parentId := 1 } : DirectoryItem)]
            "A" "doc.pdf")
          [({ id := 1, text := "X", parentId := -1 } : DirectoryItem),
           ({ id := 2, text := "Y", parentId := 1 } : DirectoryItem)]
          "A" "doc.pdf") "A" =
      knowledge_children_count
        (tree_after_merge (fun _ => "u") "t1"
          [({ id := "A", name := "A", type := "document", parentId := none,
              createdAt := "t0", file_name := none, node_id := none } :
            KnowledgeItem)]
          [({ id := 1, text := "X", parentId := -1 } : DirectoryItem),
           ({ id := 2, text := "Y", parentId := 1 } : DirectoryItem)]
          "A" "doc.pdf") "A" :=
  merge_idempotent (fun _ => "u") (fun _ => "v")
    "t1" "t2"
    [({ id := "A", name := "A", type := "document", parentId := none,
        createdAt := "t0", file_name := none, node_id := none } :
      KnowledgeItem)]
    [({ id := 1, text := "X", parentId := -1 } : DirectoryItem),
     ({ id := 2, text := "Y", parentId := 1 } : DirectoryItem)]
    "A" "doc.pdf" (fun _ h => by simp at h) (fun _ h => by simp at h)

/-- Witness for C3 on the spec's concrete outline: `Y` (local id 2, local
parent 1) is wired to the fresh id allocated for `X` (local id 1), not to
`"1"`. -/
theorem merge_id_mapping_round_trip_witness :
    ∃ new_items,
      convert_directory_to_knowledge_items (fun n => "fresh-" ++ toString n)
          "t0" [({ id := 1, text := "X", parentId := -1 } : DirectoryItem),
                ({ id := 2, text := "Y", parentId := 1 } : DirectoryItem)]
          "anchor" "doc.pdf" = some new_items ∧
      new_items.length = 2 ∧
      ∀ j (hj : j < ([({ id := 1, text := "X", parentId := -1 } : DirectoryItem),
            ({ id := 2, text := "Y", parentId := 1 } : DirectoryItem)]).length)
        (hj' : j < new_items.length),
        new_items[j].id = "fresh-" ++ toString j ∧
        (([({ id := 1, text := "X", parentId := -1 } : DirectoryItem),
            ({ id := 2, text := "Y", parentId := 1 } : DirectoryItem)])[j].parentId
            = -1 →
          new_items[j].parentId = some "anchor") ∧
        ∀ k (hk : k < ([({ id := 1, text := "X", parentId := -1 } : DirectoryItem),
            ({ id := 2, text := "Y", parentId := 1 } : DirectoryItem)]).length),
          ([({ id := 1, text := "X", parentId := -1 } : DirectoryItem),
            ({ id := 2, text := "Y", parentId := 1 } : DirectoryItem)])[j].parentId
            ≠ -1 →
          ([({ id := 1, text := "X", parentId := -1 } : DirectoryItem),
            ({ id := 2, text := "Y", parentId := 1 } : DirectoryItem)])[k].id =
            ([({ id := 1, text := "X", parentId := -1 } : DirectoryItem),
              ({ id := 2, text := "Y", parentId := 1 } : DirectoryItem)])[j].parentId →
          new_items[j].parentId = some ("fresh-" ++ toString k) :=
  merge_id_mapping_round_trip (fun n => "fresh-" ++ toString n) "t0"
    [{ id := 1, text := "X", parentId := -1 },
     { id := 2, text := "Y", parentId := 1 }] "anchor" "doc.pdf"
    (by decide)
    (by
      intro d hd
      rcases List.mem_cons.mp hd with rfl | hd'
      · exact Or.inl rfl
      · rcases List.mem_cons.mp hd' with rfl | h
        · exact Or.inr ⟨{ id := 1, text := "X", parentId := -1 }, by simp, rfl⟩
        · simp at h)

/-! ## C1: composer target satisfaction and shortfall -/

theorem subperm_map {α β : Type} (f : α → β) {l₁ l₂ : List α}
    (h : l₁.Subperm l₂) : (l₁.map f).Subperm (l₂.map f) := by
  obtain ⟨l, hperm, hsub⟩ := h
  exact ⟨l.map f, hperm.map f, hsub.map f⟩

theorem subperm_nodup {α : Type} {l₁ l₂ : List α} (h : l₁.Subperm l₂)
    (hnd : l₂.Nodup) : l₁.Nodup := by
  obtain ⟨l, hperm, hsub⟩ := h
  exact hperm.nodup_iff.mp (List.Nodup.sublist hsub hnd)

theorem length_filter_contains {ids used : List String}
    (hids : ids.Nodup) (hused : used.Nodup) (hsub : ∀ x ∈ used, x ∈ ids) :
    (ids.filter fun x => used.contains x).length = used.length := by
  have h1 : (ids.filter fun x => used.contains x).toFinset.card =
      (ids.filter fun x => used.contains x).length :=
    List.toFinset_card_of_nodup (hids.filter _)
  rw [← h1, List.toFinset_filter]
  have h2 : (ids.toFinset.filter fun x => used.contains x) = used.toFinset := by
    ext x
    simp only [Finset.mem_filter, List.mem_toFinset, List.elem_iff]
    exact ⟨fun h => h.2, fun h => ⟨hsub x h, h⟩⟩
  rw [h2]
  exact List.toFinset_card_of_nodup hused

theorem length_filter_not_contains {pool : List Question} {used : List String}
    (hpool : (pool.map Question.question_id).Nodup) (hused : used.Nodup)
    (hsub : ∀ x ∈ used, x ∈ pool.map Question.question_id) :
    (pool.filter fun q => !(used.contains q.question_id)).length =
      pool.length - used.length := by
  have htot := length_filter_not_add
    (fun q => used.contains q.question_id) pool
  have hswap : (pool.filter fun q => used.contains q.question_id).length =
      ((pool.map Question.question_id).filter fun x => used.contains x).length := by
    rw [← List.countP_eq_length_filter, ← List.countP_eq_length_filter,
      List.countP_map]
    rfl
  have hp := hswap.trans (length_filter_contains hpool hused hsub)
  omega

/-- One round-1 step preserves the selection invariant: the used-id list is
exactly the ids of the selected questions, those ids are distinct, every
selected question comes from the candidate pool, and at most
`min_per_knowledge` questions are added. -/
theorem draw_for_knowledge_step (s : Sampler) (hs : SampleSpec s)
    (min_per_knowledge : Nat) (type_questions : List Question)
    (hnodup : (type_questions.map Question.question_id).Nodup)
    (acc : List Question × List String) (knowledge_id : String)
    (h1 : acc.2 = acc.1.map Question.question_id)
    (h2 : (acc.1.map Question.question_id).Nodup)
    (h3 : ∀ q ∈ acc.1, q ∈ type_questions) :
    (draw_for_knowledge s min_per_knowledge type_questions acc knowledge_id).2 =
      (draw_for_knowledge s min_per_knowledge type_questions acc
        knowledge_id).1.map Question.question_id ∧
    ((draw_for_knowledge s min_per_knowledge type_questions acc
      knowledge_id).1.map Question.question_id).Nodup ∧
    (∀ q ∈ (draw_for_knowledge s min_per_knowledge type_questions acc
      knowledge_id).1, q ∈ type_questions) ∧
    (draw_for_knowledge s min_per_knowledge type_questions acc
      knowledge_id).1.length ≤ acc.1.length + min_per_knowledge := by
  rw [draw_for_knowledge]
  set knowledge_questions := type_questions.filter fun q =>
    q.knowledge_id == some knowledge_id && !(acc.2.contains q.question_id)
    with hkq
  by_cases hemp : knowledge_questions.isEmpty
  · simp only [hemp, if_true]
    exact ⟨h1, h2, h3, Nat.le_add_right _ _⟩
  · simp only [hemp, Bool.false_eq_true, if_false]
    have hcount : min min_per_knowledge knowledge_questions.length ≤
        knowledge_questions.length := Nat.min_le_right _ _
    obtain ⟨hslen, hssub⟩ := hs knowledge_questions _ hcount
    have hkq_sub : knowledge_questions.Sublist type_questions := by
      rw [hkq]; exact List.filter_sublist _
    have hkq_ids_nodup : (knowledge_questions.map Question.question_id).Nodup :=
      List.Nodup.sublist (hkq_sub.map _) hnodup
    have hsel_ids_nodup : ((s knowledge_questions
        (min min_per_knowledge knowledge_questions.length)).map
          Question.question_id).Nodup :=
      subperm_nodup (subperm_map _ hssub) hkq_ids_nodup
    have hsel_mem : ∀ q ∈ s knowledge_questions
        (min min_per_knowledge knowledge_questions.length),
        q ∈ knowledge_questions := fun q hq => hssub.subset hq
    have hdisj : ∀ x ∈ acc.1.map Question.question_id,
        x ∉ (s knowledge_questions
          (min min_per_knowledge knowledge_questions.length)).map
            Question.question_id := by
      intro x hx hx'
      obtain ⟨q, hq, rfl⟩ := List.mem_map.mp hx'
      have hqkq := hsel_mem q hq
      rw [hkq] at hqkq
      have hcond := (List.mem_filter.mp hqkq).2
      simp only [Bool.and_eq_true] at hcond
      have hnotin : q.question_id ∉ acc.2 := by
        simpa [List.elem_iff] using hcond.2
      rw [h1] at hnotin
      exact hnotin hx
    refine ⟨?_, ?_, ?_, ?_⟩
    · simp [h1, List.map_append]
    · simp only [List.map_append]
      exact List.Nodup.append h2 hsel_ids_nodup hdisj
    · intro q hq
      rcases List.mem_append.mp hq with hq' | hq'
      · exact h3 q hq'
      · exact hkq_sub.subset (hsel_mem q hq')
    · simp only [List.length_append, hslen]
      have := Nat.min_le_left min_per_knowledge knowledge_questions.length
      omega

/-- The round-1 fold invariant over the whole knowledge-id list. -/
theorem round1_invariant (s : Sampler) (hs : SampleSpec s)
    (min_per_knowledge : Nat) (type_questions : List Question)
    (hnodup : (type_questions.map Question.question_id).Nodup) :
    ∀ (knowledge_ids : List String) (acc : List Question × List String),
      acc.2 = acc.1.map Question.question_id →
      (acc.1.map Question.question_id).Nodup →
      (∀ q ∈ acc.1, q ∈ type_questions) →
      (knowledge_ids.foldl
          (draw_for_knowledge s min_per_knowledge type_questions) acc).2 =
        (knowledge_ids.foldl
          (draw_for_knowledge s min_per_knowledge type_questions) acc).1.map
            Question.question_id ∧
      ((knowledge_ids.foldl
        (draw_for_knowledge s min_per_knowledge type_questions) acc).1.map
          Question.question_id).Nodup ∧
      (∀ q ∈ (knowledge_ids.foldl
        (draw_for_knowledge s min_per_knowledge type_questions) acc).1,
        q ∈ type_questions) ∧
      (knowledge_ids.foldl
          (draw_for_knowledge s min_per_knowledge type_questions) acc).1.length ≤
        acc.1.length + knowledge_ids.length * min_per_knowledge := by
  intro knowledge_ids
  induction knowledge_ids with
  | nil =>
      intro acc h1 h2 h3
      exact ⟨h1, h2, h3, by simp⟩
  | cons k rest ih =>
      intro acc h1 h2 h3
      rw [List.foldl_cons]
      obtain ⟨s1, s2, s3, s4⟩ := draw_for_knowledge_step s hs min_per_knowledge
        type_questions hnodup acc k h1 h2 h3
      obtain ⟨r1, r2, r3, r4⟩ := ih
        (draw_for_knowledge s min_per_knowledge type_questions acc k) s1 s2 s3
      refine ⟨r1, r2, r3, ?_⟩
      have : rest.length * min_per_knowledge + min_per_knowledge =
          (rest.length + 1) * min_per_knowledge := by ring
      calc (rest.foldl (draw_for_knowledge s min_per_knowledge type_questions)
            (draw_for_knowledge s min_per_knowledge type_questions acc k)).1.length
          ≤ (draw_for_knowledge s min_per_knowledge type_questions acc
              k).1.length + rest.length * min_per_knowledge := r4
        _ ≤ acc.1.length + min_per_knowledge + rest.length * min_per_knowledge := by
            omega
        _ = acc.1.length + (k :: rest).length * min_per_knowledge := by
            simp [List.length_cons]
            ring

/-- The round-1 output invariant from the empty start state. -/
theorem round1_spec (s : Sampler) (hs : SampleSpec s) (min_per_knowledge : Nat)
    (type_questions : List Question) (knowledge_ids : List String)
    (hnodup : (type_questions.map Question.question_id).Nodup) :
    (round1 s min_per_knowledge type_questions knowledge_ids).2 =
      (round1 s min_per_knowledge type_questions knowledge_ids).1.map
        Question.question_id ∧
    ((round1 s min_per_knowledge type_questions knowledge_ids).1.map
      Question.question_id).Nodup ∧
    (∀ q ∈ (round1 s min_per_knowledge type_questions knowledge_ids).1,
      q ∈ type_questions) ∧
    (round1 s min_per_knowledge type_questions knowledge_ids).1.length ≤
      knowledge_ids.length * min_per_knowledge := by
  have h := round1_invariant s hs min_per_knowledge type_questions hnodup
    knowledge_ids ([], []) rfl (by simp) (by simp)
  simpa [round1] using h

/-- The selected count for one type is exactly
`min target_count (candidate pool size)`: the target is hit whenever the pool
is big enough, and the whole pool is taken when it is not. -/
theorem select_for_type_length (s : Sampler) (hs : SampleSpec s)
    (questions_list : List Question) (knowledge_ids : List String)
    (question_type : String) (target_count : Nat)
    (hnodup : ((type_questions_for questions_list knowledge_ids
      question_type).map Question.question_id).Nodup) :
    (select_for_type s questions_list knowledge_ids question_type
        target_count).length =
      min target_count
        (type_questions_for questions_list knowledge_ids question_type).length := by
  simp only [select_for_type]
  set tq := type_questions_for questions_list knowledge_ids question_type
    with htq
  by_cases hemp : tq.isEmpty
  · rw [if_pos hemp]
    have h0 : tq.length = 0 := by
      rw [List.isEmpty_iff] at hemp
      simp [hemp]
    simp [h0]
  · rw [if_neg hemp]
    obtain ⟨hused, hnd, hmem, hlen⟩ := round1_spec s hs
      (target_count / knowledge_ids.length) tq knowledge_ids hnodup
    set r1p := round1 s (target_count / knowledge_ids.length) tq knowledge_ids
      with hr1p
    have hr1_t : r1p.1.length ≤ target_count := by
      have hmul : knowledge_ids.length * (target_count / knowledge_ids.length) ≤
          target_count := by
        rw [Nat.mul_comm]
        exact Nat.div_mul_le_self _ _
      omega
    have hr1_tq : r1p.1.length ≤ tq.length := by
      have hsubset : r1p.1.map Question.question_id ⊆
          tq.map Question.question_id := by
        intro x hx
        obtain ⟨q, hq, rfl⟩ := List.mem_map.mp hx
        exact List.mem_map.mpr ⟨q, hmem q hq, rfl⟩
      have := (List.subperm_of_subset hnd hsubset).length_le
      simpa using this
    by_cases hneed : ((target_count : Int) - r1p.1.length > 0)
    · rw [if_pos hneed]
      have hremc : (tq.filter fun q =>
          !(r1p.2.contains q.question_id) &&
            knowledge_id_selected knowledge_ids q) =
          tq.filter fun q => !(r1p.2.contains q.question_id) := by
        refine List.filter_congr fun q hq => ?_
        have hq' : q ∈ type_questions_for questions_list knowledge_ids
            question_type := htq ▸ hq
        rw [type_questions_for] at hq'
        have hks := (List.mem_filter.mp hq').2
        simp only [Bool.and_eq_true] at hks
        simp [hks.2]
      rw [hremc]
      have hsub_ids : ∀ x ∈ r1p.2, x ∈ tq.map Question.question_id := by
        rw [hused]
        intro x hx
        obtain ⟨q, hq, rfl⟩ := List.mem_map.mp hx
        exact List.mem_map.mpr ⟨q, hmem q hq, rfl⟩
      have hused_nd : r1p.2.Nodup := hused ▸ hnd
      have hremlen : (tq.filter fun q =>
          !(r1p.2.contains q.question_id)).length =
          tq.length - r1p.1.length := by
        rw [length_filter_not_contains hnodup hused_nd hsub_ids, hused,
          List.length_map]
      have hlt : r1p.1.length < target_count := by omega
      by_cases hrem : (tq.filter fun q =>
          !(r1p.2.contains q.question_id)).isEmpty
      · rw [if_pos hrem]
        have h0 : (tq.filter fun q =>
            !(r1p.2.contains q.question_id)).length = 0 := by
          rw [List.isEmpty_iff] at hrem
          rw [hrem]
          rfl
        rw [hremlen] at h0
        omega
      · rw [if_neg hrem]
        have hslen := (hs (tq.filter fun q => !(r1p.2.contains q.question_id))
          (min ((target_count : Int) - r1p.1.length).toNat
            (tq.filter fun q => !(r1p.2.contains q.question_id)).length)
          (Nat.min_le_right _ _)).1
        rw [List.length_append, hslen, hremlen]
        have htoNat : ((target_count : Int) - r1p.1.length).toNat =
            target_count - r1p.1.length := Int.toNat_sub _ _
        rw [htoNat]
        omega
    · rw [if_neg hneed]
      omega

/-- C1: inside `compose_quiz`'s loop over `target_counts`, an entry with a
positive target for some question type contributes exactly `target_count`
quiz items when the candidate pool (stored questions with a matching
lower-cased type and a selected knowledge id) holds at least `target_count`
questions, and exactly the whole pool when it is smaller; every contributed
item carries the empty-string `quiz_id`.  (Pool question ids are assumed
distinct, per the data-model invariant that `question_id` is unique.) -/
theorem compose_quiz_target_satisfaction (s : Sampler) (hs : SampleSpec s)
    (uuid : Nat → String) (questions_raw : List RawQuestion)
    (knowledge_ids : List String) (question_type : String) (target_count : Int)
    (acc : List QuizQuestion × Nat)
    (htc : 0 < target_count)
    (hnodup : ((type_questions_for (load_questions questions_raw) knowledge_ids
      question_type).map Question.question_id).Nodup) :
    ∃ items counter,
      compose_type_step s uuid questions_raw (load_questions questions_raw)
          knowledge_ids acc (question_type, target_count) =
        (acc.1 ++ items, counter) ∧
      (target_count.toNat ≤ (type_questions_for (load_questions questions_raw)
          knowledge_ids question_type).length →
        items.length = target_count.toNat) ∧
      ((type_questions_for (load_questions questions_raw) knowledge_ids
          question_type).length < target_count.toNat →
        items.length = (type_questions_for (load_questions questions_raw)
          knowledge_ids question_type).length) ∧
      (∀ item ∈ items, item.quiz_id = "") := by
  refine ⟨(build_quiz_items uuid questions_raw
      (select_for_type s (load_questions questions_raw) knowledge_ids
        question_type target_count.toNat) acc.2).1,
    (build_quiz_items uuid questions_raw
      (select_for_type s (load_questions questions_raw) knowledge_ids
        question_type target_count.toNat) acc.2).2, ?_, ?_, ?_, ?_⟩
  · simp only [compose_type_step]
    rw [if_neg (not_le.mpr htc)]
  · intro hle
    rw [build_quiz_items_length, select_for_type_length s hs _ _ _ _ hnodup,
      Nat.min_eq_left hle]
  · intro hlt
    rw [build_quiz_items_length, select_for_type_length s hs _ _ _ _ hnodup,
      Nat.min_eq_right (Nat.le_of_lt hlt)]
  · exact build_quiz_items_quiz_id uuid questions_raw _ _

/-- Witness for C1: with a three-question pool over two knowledge points and
a target of 2, exactly 2 unassigned items are composed. -/
theorem compose_quiz_target_satisfaction_witness :
    (0 : Int) < 2 ∧
    ∃ items counter,
      compose_type_step take_sampler (fun n => toString n) sample_multi_store
          (load_questions sample_multi_store) ["K1", "K2"] ([], 0)
          ("single_choice", 2) = (([] : List QuizQuestion) ++ items, counter) ∧
      ((2 : Int).toNat ≤
          (type_questions_for (load_questions sample_multi_store) ["K1", "K2"]
            "single_choice").length →
        items.length = (2 : Int).toNat) ∧
      ((type_questions_for (load_questions sample_multi_store) ["K1", "K2"]
          "single_choice").length < (2 : Int).toNat →
        items.length = (type_questions_for (load_questions sample_multi_store)
          ["K1", "K2"] "single_choice").length) ∧
      (∀ item ∈ items, item.quiz_id = "") :=
  ⟨by decide,
    compose_quiz_target_satisfaction take_sampler take_sampler_spec
      (fun n => toString n) sample_multi_store ["K1", "K2"] "single_choice" 2
      ([], 0) (by decide) (by decide)⟩

/-! ## C10: compose input guards -/

/-- C10: `compose_quiz` rejects an empty question store with a 400 "no
questions in bank" error and an empty knowledge-id selection (checked
second) with a 400 "select at least one knowledge point" error; in both
cases the quiz-question store is left untouched. -/
theorem compose_quiz_input_guards (s : Sampler) (uuid : Nat → String)
    (questions_raw : List RawQuestion) (quiz_questions : List QuizQuestion)
    (bank_id : String) (knowledge_ids : List String)
    (target_counts : List (String × Int)) (quiz_name : String) :
    (questions_raw = [] →
      compose_quiz s uuid questions_raw quiz_questions bank_id knowledge_ids
          target_counts quiz_name = .error ⟨400, "题库中没有题目"⟩ ∧
      quiz_store_after_compose s uuid questions_raw quiz_questions bank_id
        knowledge_ids target_counts quiz_name = quiz_questions) ∧
    (load_questions questions_raw ≠ [] → knowledge_ids = [] →
      compose_quiz s uuid questions_raw quiz_questions bank_id knowledge_ids
          target_counts quiz_name = .error ⟨400, "请至少选择一个知识点"⟩ ∧
      quiz_store_after_compose s uuid questions_raw quiz_questions bank_id
        knowledge_ids target_counts quiz_name = quiz_questions) := by
  constructor
  · rintro rfl
    exact ⟨rfl, rfl⟩
  · intro hne hkids
    subst hkids
    have hempty : (load_questions questions_raw).isEmpty = false := by
      cases h : load_questions questions_raw with
      | nil => exact absurd h hne
      | cons q rest => rfl
    have herr : compose_quiz s uuid questions_raw quiz_questions bank_id []
        target_counts quiz_name = .error ⟨400, "请至少选择一个知识点"⟩ := by
      rw [compose_quiz]
      simp [hempty]
    exact ⟨herr, by rw [quiz_store_after_compose, herr]⟩

/-- Witness for C10: the two rejections on concrete inputs, with the
quiz-question store unchanged. -/
theorem compose_quiz_input_guards_witness :
    (compose_quiz take_sampler (fun n => toString n) [] [] "bank_1" ["K1"]
        [("essay", 1)] "" = .error ⟨400, "题库中没有题目"⟩ ∧
      quiz_store_after_compose take_sampler (fun n => toString n) [] []
        "bank_1" ["K1"] [("essay", 1)] "" = []) ∧
    (compose_quiz take_sampler (fun n => toString n) sample_question_store []
        "bank_1" [] [("essay", 1)] "" = .error ⟨400, "请至少选择一个知识点"⟩ ∧
      quiz_store_after_compose take_sampler (fun n => toString n)
        sample_question_store [] "bank_1" [] [("essay", 1)] "" = []) :=
  ⟨(compose_quiz_input_guards take_sampler (fun n => toString n) [] []
      "bank_1" ["K1"] [("essay", 1)] "").1 rfl,
    (compose_quiz_input_guards take_sampler (fun n => toString n)
      sample_question_store [] "bank_1" [] [("essay", 1)] "").2
      (by simp [load_questions, sample_question_store]) rfl⟩

/-- Witness for C8 on a one-node tree and a missing anchor id. -/
theorem merge_missing_anchor_witness :
    merge_knowledge_points_to_tree (fun n => toString n) "t0"
        [({ id := "A", name := "A", type := "folder", parentId := none,
            createdAt := "t0", file_name := none, node_id := none } :
          KnowledgeItem)]
        [({ id := 1, text := "X", parentId := -1 } : DirectoryItem)] "Z" "f.pdf" =
      some ([({ id := "A", name := "A", type := "folder", parentId := none,
                createdAt := "t0", file_name := none, node_id := none } :
              KnowledgeItem)], 0) :=
  merge_missing_anchor (fun n => toString n) "t0" _ _ "Z" "f.pdf" (by decide)

end Doc2Quiz
